import Mathlib

/-!
Shallow embedding of the mdparser repository: the lexer (src/lexer.ts) and
the recursive-descent parser (parser.ts, the variant importing the lexer).
JavaScript string-indexing semantics are modelled explicitly: reading a
string out of range yields `undefined`, which later string operations
coerce to the literal text "undefined".
-/

namespace MdParser

/-- Token kinds, as in the TokenType enum of src/lexer.ts. -/
inductive TokenType
  | STRING
  | SPACE
  | NEWLINE
  | BOLD
  | ITALIC
  | UNORDEREDLI
  | HEADER1
  | HEADER2
  | HEADER3
  | HEADER4
  | HEADER5
  | MONOSPACE
  | CODE
  | UNTYPED
  | EOF
  | LINEBREAK
  deriving DecidableEq, Repr

/-- A token, as in src/lexer.ts: a literal text and a kind. -/
structure Token where
  tokenValue : String
  tokenType : TokenType
  deriving DecidableEq, Repr

/-- The result of reading one character of a JavaScript string: a real
character, or `undefined` when the index is out of range. -/
inductive JSChar
  | char (c : Char)
  | undef
  deriving DecidableEq, Repr

/-- The NUL sentinel the lexer stores in `currentChar` at end of input. -/
def nulChar : JSChar := JSChar.char (Char.ofNat 0)

/-- Coercion of a single-character read to a string, as JavaScript string
concatenation performs it: `undefined` becomes the text "undefined". -/
def JSChar.toStr : JSChar → String
  | JSChar.char c => String.singleton c
  | JSChar.undef => "undefined"

/-- Indexing a JavaScript string: in range gives the character, out of
range gives `undefined`. -/
def jsCharAt (input : List Char) (i : Nat) : JSChar :=
  if h : i < input.length then JSChar.char (input.get ⟨i, h⟩) else JSChar.undef

/-- Decides membership of a character in the class [A-Za-z0-9]. -/
def isAlphaNumericChar (c : Char) : Bool :=
  (Char.ofNat 65 ≤ c && c ≤ Char.ofNat 90) ||
  (Char.ofNat 97 ≤ c && c ≤ Char.ofNat 122) ||
  (Char.ofNat 48 ≤ c && c ≤ Char.ofNat 57)

/-- The isAlphaNumeric test of src/utils.ts: the regular expression
[A-Za-z0-9]+ anchored at both ends, so the string must be nonempty and
every character must be alphanumeric. -/
def isAlphaNumeric (s : String) : Bool :=
  !s.toList.isEmpty && s.toList.all isAlphaNumericChar

/-- The mutable state of the Lexer class: the input, the scan position and
the current character. The class field holding the last returned token is
omitted: it only mirrors the return value of getNextToken. -/
structure LexState where
  input : List Char
  position : Nat
  currentChar : JSChar
  deriving DecidableEq, Repr

/-- The Lexer constructor: position 0 and currentChar = input[0] (which is
`undefined` when the input is empty). -/
def mkLexer (s : String) : LexState :=
  { input := s.toList, position := 0, currentChar := jsCharAt s.toList 0 }

/-- The lexer's peek: the character `stroke` places ahead, or the empty
string (modelled as `none`) when that runs past the end. The source guard
is input.length - 1 >= position + stroke, in JavaScript arithmetic. -/
def LexState.peek (st : LexState) (stroke : Nat) : Option Char :=
  if h : st.position + stroke < st.input.length then
    some (st.input.get ⟨st.position + stroke, h⟩)
  else
    none

/-- The lexer's peekSequence: when the position sits on the last input
character the loop breaks at once and yields ""; otherwise it concatenates
`size` reads starting at the position, out-of-range reads contributing the
text "undefined". The break guard compares the fixed field position (not
the loop counter) to input.length - 1, hence this all-or-nothing shape. -/
def LexState.peekSequence (st : LexState) (size : Nat) : String :=
  if st.position + 1 = st.input.length then ""
  else String.join ((List.range size).map
    (fun i => (jsCharAt st.input (st.position + i)).toStr))

/-- The lexer's advance: when position + stroke runs past the last index
the current character becomes the NUL sentinel and the position stays put;
otherwise both move forward by `stroke`. -/
def LexState.advance (st : LexState) (stroke : Nat) : LexState :=
  if st.position + stroke ≥ st.input.length then
    { st with currentChar := nulChar }
  else
    { st with position := st.position + stroke,
              currentChar := jsCharAt st.input (st.position + stroke) }

/-- The lexical error thrown by invalidCharacterError: it carries the
offending character and the scan position. -/
inductive LexError
  | invalidCharacter (c : JSChar) (position : Nat)
  deriving DecidableEq, Repr

/-- The header-token scan: probe for runs of five down to two hash marks
with peekSequence, else a single hash; advance by the matched length. -/
def getHeaderToken (st : LexState) : Token × LexState :=
  if st.peekSequence 5 = "#####" then
    (⟨"#####", TokenType.HEADER5⟩, st.advance 5)
  else if st.peekSequence 4 = "####" then
    (⟨"####", TokenType.HEADER4⟩, st.advance 4)
  else if st.peekSequence 3 = "###" then
    (⟨"###", TokenType.HEADER3⟩, st.advance 3)
  else if st.peekSequence 2 = "##" then
    (⟨"##", TokenType.HEADER2⟩, st.advance 2)
  else
    (⟨"#", TokenType.HEADER1⟩, st.advance 1)

/-- The body of getTextToken's while loop, with fuel. While the current
character (coerced to a string) passes isAlphaNumeric, append it and
advance one place. An `undefined` current character passes the test (the
text "undefined" is alphanumeric) and is appended as that text. -/
def getTextAux : Nat → LexState → String → String × LexState
  | 0, st, s => (s, st)
  | fuel + 1, st, s =>
    if isAlphaNumeric st.currentChar.toStr then
      getTextAux fuel (st.advance 1) (s ++ st.currentChar.toStr)
    else
      (s, st)

/-- One loop iteration increases the position or parks the current
character on NUL, so this fuel is never exhausted mid-run. -/
def getTextToken (st : LexState) : Token × LexState :=
  let r := getTextAux (st.input.length + 2) st ""
  (⟨r.1, TokenType.STRING⟩, r.2)

/-- The backtick scan: a triple backtick gives a CODE token consuming
three characters, else a single MONOSPACE backtick. -/
def getCodeToken (st : LexState) : Token × LexState :=
  if st.peek 1 = some (Char.ofNat 96) && st.peek 2 = some (Char.ofNat 96) then
    (⟨"```", TokenType.CODE⟩, st.advance 3)
  else
    (⟨"`", TokenType.MONOSPACE⟩, st.advance 1)

/-- The dispatch of getNextToken on the current character. Only a lone
asterisk throws; every unlisted character falls to getTextToken. -/
def getNextToken (st : LexState) : Except LexError (Token × LexState) :=
  match st.currentChar with
  | JSChar.char c =>
    if c = Char.ofNat 0 then
      Except.ok (⟨String.singleton (Char.ofNat 0), TokenType.EOF⟩, st)
    else if c = Char.ofNat 32 then
      Except.ok (⟨" ", TokenType.SPACE⟩, st.advance 1)
    else if c = Char.ofNat 95 then
      Except.ok (⟨"_", TokenType.ITALIC⟩, st.advance 1)
    else if c = Char.ofNat 42 then
      if st.peek 1 = some (Char.ofNat 42) then
        Except.ok (⟨"**", TokenType.BOLD⟩, st.advance 2)
      else
        Except.error (LexError.invalidCharacter st.currentChar st.position)
    else if c = Char.ofNat 45 then
      if st.peek 1 = some (Char.ofNat 45) && st.peek 2 = some (Char.ofNat 45) then
        Except.ok (⟨"---", TokenType.LINEBREAK⟩, st.advance 3)
      else
        Except.ok (⟨"-", TokenType.UNORDEREDLI⟩, st.advance 1)
    else if c = Char.ofNat 35 then
      Except.ok (getHeaderToken st)
    else if c = Char.ofNat 96 then
      Except.ok (getCodeToken st)
    else if c = Char.ofNat 10 then
      Except.ok (⟨"\n", TokenType.NEWLINE⟩, st.advance 1)
    else
      Except.ok (getTextToken st)
  | JSChar.undef =>
    Except.ok (getTextToken st)

/-- AST node kinds, as in the NodeType enum of parser.ts. -/
inductive NodeType
  | RootNode
  | UnorderedList
  | UnorderedListRoot
  | UnorderedListItem
  | OrderedList
  | StringNode
  | SpaceNode
  | Bold
  | Italic
  | Code
  | Monospace
  | Header1
  | Header2
  | Header3
  | Header4
  | Header5
  | Void
  | NewLineNode
  deriving DecidableEq, Repr

/-- An AST node: the general variant carries a kind, the triggering token
and the children; the code-block variant additionally carries the language
name and its kind is fixed to Code. -/
inductive ASTNode
  | node (nodeType : NodeType) (token : Token) (children : List ASTNode)
  | codeNode (token : Token) (languageName : String) (children : List ASTNode)

/-- Projection of the node kind. -/
def ASTNode.nodeType : ASTNode → NodeType
  | ASTNode.node t _ _ => t
  | ASTNode.codeNode _ _ _ => NodeType.Code

/-- Projection of the triggering token. -/
def ASTNode.token : ASTNode → Token
  | ASTNode.node _ t _ => t
  | ASTNode.codeNode t _ _ => t

/-- Projection of the children list. -/
def ASTNode.children : ASTNode → List ASTNode
  | ASTNode.node _ _ cs => cs
  | ASTNode.codeNode _ _ cs => cs

/-- The language name of a code node; the other variant has none. -/
def ASTNode.languageName : ASTNode → Option String
  | ASTNode.node _ _ _ => none
  | ASTNode.codeNode _ l _ => some l

/-- A parse failure: a lexical error propagated out of getNextToken, or
the parser's own invalidTokenError carrying the unexpected token. -/
inductive PError
  | lexical (e : LexError)
  | invalidToken (t : Token)
  deriving DecidableEq, Repr

/-- The Parser state: the wrapped lexer and the one-token lookahead. -/
structure PState where
  lex : LexState
  currentToken : Token
  deriving DecidableEq, Repr

/-- The Parser constructor primes the lookahead by requesting the first
token from the lexer. -/
def mkParser (s : String) : Except PError PState :=
  match getNextToken (mkLexer s) with
  | Except.error e => Except.error (PError.lexical e)
  | Except.ok (t, ls) => Except.ok ⟨ls, t⟩

/-- The parser's eat: on a kind match replace the lookahead with the next
token, otherwise raise invalidTokenError on the current token. -/
def eat (tt : TokenType) (ps : PState) : Except PError PState :=
  if ps.currentToken.tokenType = tt then
    match getNextToken ps.lex with
    | Except.error e => Except.error (PError.lexical e)
    | Except.ok (t, ls) => Except.ok ⟨ls, t⟩
  else
    Except.error (PError.invalidToken ps.currentToken)

/-- Results of a fueled parser function: `none` means the fuel ran out
(the source can genuinely diverge, e.g. on a character that lexes to an
empty String token), otherwise the source's result: an error or a value
together with the updated parser state. -/
def PResult (α : Type) : Type := Option (Except PError (α × PState))

/-- Sequencing of a token consumption into a parser continuation: the
thrown error aborts, mirroring exception propagation in the source. -/
def pbind {δ : Type} : Except PError PState → (PState → Option (Except PError δ)) →
    Option (Except PError δ)
  | Except.error e, _ => some (Except.error e)
  | Except.ok ps, k => k ps

/-- Sequencing of one parser result into the next parser step: fuel
exhaustion and thrown errors abort, mirroring the source's control flow. -/
def rbind {α δ : Type} : PResult α → (α → PState → Option (Except PError δ)) →
    Option (Except PError δ)
  | none, _ => none
  | some (Except.error e), _ => some (Except.error e)
  | some (Except.ok (a, ps)), k => k a ps

/-- The while loop of allCharsStmt: while the lookahead is a String or
Space token, append its text to the accumulator and eat it. -/
def allCharsAux : Nat → String → PState → PResult String
  | 0, _, _ => none
  | fuel + 1, acc, ps =>
    if ps.currentToken.tokenType = TokenType.STRING ∨
       ps.currentToken.tokenType = TokenType.SPACE then
      pbind (eat ps.currentToken.tokenType ps) (fun ps' =>
        allCharsAux fuel (acc ++ ps.currentToken.tokenValue) ps')
    else
      some (Except.ok (acc, ps))

/-- The allCharsStmt rule: a single StringNode holding the concatenated
texts of the consumed String/Space run, with no children. -/
def allCharsStmt (fuel : Nat) (ps : PState) : PResult ASTNode :=
  rbind (allCharsAux fuel "" ps) (fun s ps' =>
    some (Except.ok (ASTNode.node NodeType.StringNode ⟨s, TokenType.STRING⟩ [], ps')))

/-- The textStmt rule: a String token yields a StringNode holding that one
token and then recurses with the result discarded (only its token
consumption and errors survive); a Newline token yields a NewLineNode;
any other token yields an empty StringNode without consuming anything. -/
def textStmt : Nat → PState → PResult ASTNode
  | 0, _ => none
  | fuel + 1, ps =>
    match ps.currentToken.tokenType with
    | TokenType.STRING =>
      pbind (eat TokenType.STRING ps) (fun ps' =>
        rbind (textStmt fuel ps') (fun _ ps'' =>
          some (Except.ok (ASTNode.node NodeType.StringNode ps.currentToken [], ps''))))
    | TokenType.NEWLINE =>
      pbind (eat TokenType.NEWLINE ps) (fun ps' =>
        some (Except.ok (ASTNode.node NodeType.NewLineNode ps.currentToken [], ps')))
    | _ =>
      some (Except.ok (ASTNode.node NodeType.StringNode ⟨"", TokenType.STRING⟩ [], ps))

mutual

/-- The boldStmt rule: eat the opening BOLD, collect the inner nodes,
eat the closing BOLD. -/
def boldStmt : Nat → PState → PResult ASTNode
  | 0, _ => none
  | fuel + 1, ps =>
    pbind (eat TokenType.BOLD ps) (fun ps₁ =>
      rbind (innerBoldStmt fuel [] ps₁) (fun ns ps₂ =>
        pbind (eat TokenType.BOLD ps₂) (fun ps₃ =>
          some (Except.ok (ASTNode.node NodeType.Bold ps.currentToken ns, ps₃)))))

/-- The italicStmt rule: eat the opening ITALIC, collect the inner nodes,
eat the closing ITALIC. -/
def italicStmt : Nat → PState → PResult ASTNode
  | 0, _ => none
  | fuel + 1, ps =>
    pbind (eat TokenType.ITALIC ps) (fun ps₁ =>
      rbind (innerItalicStmt fuel [] ps₁) (fun ns ps₂ =>
        pbind (eat TokenType.ITALIC ps₂) (fun ps₃ =>
          some (Except.ok (ASTNode.node NodeType.Italic ps.currentToken ns, ps₃)))))

/-- The while loop of innerBoldStmt: while the lookahead is ITALIC or
STRING, append the node the corresponding rule produces. -/
def innerBoldStmt : Nat → List ASTNode → PState → PResult (List ASTNode)
  | 0, _, _ => none
  | fuel + 1, ns, ps =>
    if ps.currentToken.tokenType = TokenType.ITALIC then
      rbind (italicStmt fuel ps) (fun n ps' => innerBoldStmt fuel (ns ++ [n]) ps')
    else if ps.currentToken.tokenType = TokenType.STRING then
      rbind (allCharsStmt fuel ps) (fun n ps' => innerBoldStmt fuel (ns ++ [n]) ps')
    else
      some (Except.ok (ns, ps))

/-- The while loop of innerItalicStmt: while the lookahead is BOLD or
STRING, append the node the corresponding rule produces. -/
def innerItalicStmt : Nat → List ASTNode → PState → PResult (List ASTNode)
  | 0, _, _ => none
  | fuel + 1, ns, ps =>
    if ps.currentToken.tokenType = TokenType.BOLD then
      rbind (boldStmt fuel ps) (fun n ps' => innerItalicStmt fuel (ns ++ [n]) ps')
    else if ps.currentToken.tokenType = TokenType.STRING then
      rbind (allCharsStmt fuel ps) (fun n ps' => innerItalicStmt fuel (ns ++ [n]) ps')
    else
      some (Except.ok (ns, ps))

end

/-- The monoSpaceStmt rule: a Monospace node wrapping one allCharsStmt
node between two single backticks. -/
def monoSpaceStmt : Nat → PState → PResult ASTNode
  | 0, _ => none
  | fuel + 1, ps =>
    pbind (eat TokenType.MONOSPACE ps) (fun ps₁ =>
      rbind (allCharsStmt fuel ps₁) (fun n ps₂ =>
        pbind (eat TokenType.MONOSPACE ps₂) (fun ps₃ =>
          some (Except.ok (ASTNode.node NodeType.Monospace ps.currentToken [n], ps₃)))))

/-- The codeStmt rule: eat the opening fence, capture the language name
from the lookahead, eat a String and a Newline, collect the body with
allCharsStmt, eat the closing fence. -/
def codeStmt : Nat → PState → PResult ASTNode
  | 0, _ => none
  | fuel + 1, ps =>
    pbind (eat TokenType.CODE ps) (fun ps₁ =>
      pbind (eat TokenType.STRING ps₁) (fun ps₂ =>
        pbind (eat TokenType.NEWLINE ps₂) (fun ps₃ =>
          rbind (allCharsStmt fuel ps₃) (fun n ps₄ =>
            pbind (eat TokenType.CODE ps₄) (fun ps₅ =>
              some (Except.ok
                (ASTNode.codeNode ps.currentToken ps₁.currentToken.tokenValue [n], ps₅)))))))

/-- The header lookup table of headerStmt. -/
def headersMap : TokenType → Option NodeType
  | TokenType.HEADER1 => some NodeType.Header1
  | TokenType.HEADER2 => some NodeType.Header2
  | TokenType.HEADER3 => some NodeType.Header3
  | TokenType.HEADER4 => some NodeType.Header4
  | TokenType.HEADER5 => some NodeType.Header5
  | _ => none

/-- The headerStmt rule: a header token picks the node kind from the
table (anything else is invalidTokenError), then a mandatory Space, then
one allCharsStmt node as the single child. -/
def headerStmt : Nat → PState → PResult ASTNode
  | 0, _ => none
  | fuel + 1, ps =>
    match headersMap ps.currentToken.tokenType with
    | none => some (Except.error (PError.invalidToken ps.currentToken))
    | some nt =>
      pbind (eat ps.currentToken.tokenType ps) (fun ps₁ =>
        pbind (eat TokenType.SPACE ps₁) (fun ps₂ =>
          rbind (allCharsStmt fuel ps₂) (fun n ps₃ =>
            some (Except.ok (ASTNode.node nt ps.currentToken [n], ps₃)))))

/-- The innerUnorederedLiStmt rule (source spelling kept): eat the list
marker and a Space, then dispatch on the lookahead; every unlisted kind
falls into the headerStmt branch. -/
def innerUnorederedLiStmt : Nat → PState → PResult ASTNode
  | 0, _ => none
  | fuel + 1, ps =>
    pbind (eat TokenType.UNORDEREDLI ps) (fun ps₁ =>
      pbind (eat TokenType.SPACE ps₁) (fun ps₂ =>
        rbind
          (match ps₂.currentToken.tokenType with
            | TokenType.ITALIC => italicStmt fuel ps₂
            | TokenType.BOLD => boldStmt fuel ps₂
            | TokenType.STRING => allCharsStmt fuel ps₂
            | TokenType.MONOSPACE => monoSpaceStmt fuel ps₂
            | _ => headerStmt fuel ps₂)
          (fun n ps₃ =>
            some (Except.ok
              (ASTNode.node NodeType.UnorderedListItem ps.currentToken [n], ps₃)))))

/-- The while loop of unorderedListStmt: while the lookahead is a list
marker, append one list item. -/
def unorderedListAux : Nat → List ASTNode → PState → PResult (List ASTNode)
  | 0, _, _ => none
  | fuel + 1, ns, ps =>
    if ps.currentToken.tokenType = TokenType.UNORDEREDLI then
      rbind (innerUnorederedLiStmt fuel ps) (fun n ps' =>
        unorderedListAux fuel (ns ++ [n]) ps')
    else
      some (Except.ok (ns, ps))

/-- The unorderedListStmt rule: an UnorderedListRoot with a synthetic
token, holding the collected items. -/
def unorderedListStmt (fuel : Nat) (ps : PState) : PResult ASTNode :=
  rbind (unorderedListAux fuel [] ps) (fun ns ps' =>
    some (Except.ok
      (ASTNode.node NodeType.UnorderedListRoot ⟨"lis", TokenType.UNTYPED⟩ ns, ps')))

/-- The formatStmt dispatch on the lookahead kind. EOF returns the unused
Void placeholder; the five header kinds go to headerStmt; UNTYPED and
LINEBREAK are invalidTokenError. -/
def formatStmt : Nat → PState → PResult ASTNode
  | 0, _ => none
  | fuel + 1, ps =>
    match ps.currentToken.tokenType with
    | TokenType.STRING => textStmt fuel ps
    | TokenType.SPACE => allCharsStmt fuel ps
    | TokenType.MONOSPACE => monoSpaceStmt fuel ps
    | TokenType.CODE => codeStmt fuel ps
    | TokenType.ITALIC => italicStmt fuel ps
    | TokenType.BOLD => boldStmt fuel ps
    | TokenType.NEWLINE => textStmt fuel ps
    | TokenType.UNORDEREDLI => unorderedListStmt fuel ps
    | TokenType.EOF =>
      some (Except.ok (ASTNode.node NodeType.Void ⟨"", TokenType.UNTYPED⟩ [], ps))
    | TokenType.HEADER1 => headerStmt fuel ps
    | TokenType.HEADER2 => headerStmt fuel ps
    | TokenType.HEADER3 => headerStmt fuel ps
    | TokenType.HEADER4 => headerStmt fuel ps
    | TokenType.HEADER5 => headerStmt fuel ps
    | TokenType.UNTYPED => some (Except.error (PError.invalidToken ps.currentToken))
    | TokenType.LINEBREAK => some (Except.error (PError.invalidToken ps.currentToken))

/-- The while loop of rootStmt: until the lookahead is EOF, append one
formatStmt node to the document's children. -/
def rootAux : Nat → List ASTNode → PState → PResult (List ASTNode)
  | 0, _, _ => none
  | fuel + 1, ns, ps =>
    if ps.currentToken.tokenType = TokenType.EOF then
      some (Except.ok (ns, ps))
    else
      rbind (formatStmt fuel ps) (fun n ps' => rootAux fuel (ns ++ [n]) ps')

/-- The rootStmt rule: the document node with a synthetic Root token. -/
def rootStmt (fuel : Nat) (ps : PState) : PResult ASTNode :=
  rbind (rootAux fuel [] ps) (fun ns ps' =>
    some (Except.ok (ASTNode.node NodeType.RootNode ⟨"Root", TokenType.UNTYPED⟩ ns, ps')))

/-- A fuel budget generous enough for every terminating parse of the
given input: every loop iteration and recursive call consumes at least
one token or raises, and tokens are at least one character apart except
at the degenerate empty-String point where the source diverges anyway. -/
def parseFuel (s : String) : Nat := 4 * s.length + 64

/-- Parsing a whole document: construct the lexer and the parser, then
run rootStmt. The outer `none` means the fuel budget was exhausted, which
on a terminating run of the source never happens. -/
def parse (s : String) : Option (Except PError ASTNode) :=
  pbind (mkParser s) (fun ps =>
    rbind (rootStmt (parseFuel s) ps) (fun n _ => some (Except.ok n)))

/-- Concatenation of the literal texts of a list of tokens. -/
def concatValues (ts : List Token) : String :=
  ts.foldr (fun t acc => t.tokenValue ++ acc) ""

/-- The maximal run of String and Space tokens starting at the parser
state's lookahead, obtained by the same eat steps allCharsStmt performs:
the run stops at the first lookahead of any other kind (or at a lexical
error, where allCharsStmt aborts anyway). -/
def runStep : Except PError PState → (PState → List Token) → List Token
  | Except.error _, _ => []
  | Except.ok ps, k => k ps

def allCharsRun : Nat → PState → List Token
  | 0, _ => []
  | fuel + 1, ps =>
    if ps.currentToken.tokenType = TokenType.STRING ∨
       ps.currentToken.tokenType = TokenType.SPACE then
      runStep (eat ps.currentToken.tokenType ps)
        (fun ps' => ps.currentToken :: allCharsRun fuel ps')
    else []

/-! Theorems. -/

/-- Unfolding pbind on a thrown error. -/
@[simp] theorem pbind_error {δ : Type} (e : PError)
    (k : PState → Option (Except PError δ)) :
    pbind (Except.error e) k = some (Except.error e) := rfl

/-- Unfolding pbind on a successful step. -/
@[simp] theorem pbind_ok {δ : Type} (ps : PState)
    (k : PState → Option (Except PError δ)) :
    pbind (Except.ok ps) k = k ps := rfl

/-- Unfolding rbind on fuel exhaustion. -/
@[simp] theorem rbind_none {α δ : Type} (k : α → PState → Option (Except PError δ)) :
    rbind none k = none := rfl

/-- Unfolding rbind on a thrown error. -/
@[simp] theorem rbind_error {α δ : Type} (e : PError)
    (k : α → PState → Option (Except PError δ)) :
    rbind (some (Except.error e)) k = some (Except.error e) := rfl

/-- Unfolding rbind on a successful step. -/
@[simp] theorem rbind_ok {α δ : Type} (a : α) (ps : PState)
    (k : α → PState → Option (Except PError δ)) :
    rbind (some (Except.ok (a, ps))) k = k a ps := rfl

/-- Unfolding runStep on a successful step. -/
@[simp] theorem runStep_ok (ps : PState) (k : PState → List Token) :
    runStep (Except.ok ps) k = k ps := rfl

/-- The alphanumeric test on a one-character string reduces to the
character-level test. -/
theorem isAlphaNumeric_singleton (c : Char) :
    isAlphaNumeric (String.singleton c) = isAlphaNumericChar c := by
  simp [isAlphaNumeric, String.singleton, String.toList]

/-- An alphanumeric character is none of the characters the getNextToken
dispatch treats specially. -/
theorem alnum_ne_special (c : Char) (h : isAlphaNumericChar c = true) :
    c ≠ Char.ofNat 0 ∧ c ≠ Char.ofNat 32 ∧ c ≠ Char.ofNat 95 ∧
    c ≠ Char.ofNat 42 ∧ c ≠ Char.ofNat 45 ∧ c ≠ Char.ofNat 35 ∧
    c ≠ Char.ofNat 96 ∧ c ≠ Char.ofNat 10 := by
  refine ⟨?_, ?_, ?_, ?_, ?_, ?_, ?_, ?_⟩ <;>
    (rintro rfl; exact absurd h (by decide))

/-- The header scan never yields an EOF-kind token. -/
theorem getHeaderToken_ne_eof (st : LexState) :
    (getHeaderToken st).1.tokenType ≠ TokenType.EOF := by
  unfold getHeaderToken
  split_ifs <;> simp

/-- The backtick scan never yields an EOF-kind token. -/
theorem getCodeToken_ne_eof (st : LexState) :
    (getCodeToken st).1.tokenType ≠ TokenType.EOF := by
  unfold getCodeToken
  split_ifs <;> simp

/-- The text scan always yields a String-kind token. -/
theorem getTextToken_type (st : LexState) :
    (getTextToken st).1.tokenType = TokenType.STRING := rfl

/-- C9. Once getNextToken returns an EndOfInput token the lexer state is
left exactly as it was (the EOF branch neither advances the position nor
changes the current character), and the next request returns the same
token and state again; by induction the same holds for every subsequent
request, so EndOfInput is produced forever at end of stream. -/
theorem C9_eof_idempotent (st : LexState) (t : Token) (st' : LexState)
    (h : getNextToken st = Except.ok (t, st'))
    (ht : t.tokenType = TokenType.EOF) :
    st' = st ∧ getNextToken st' = Except.ok (t, st') := by
  rcases hHt : getHeaderToken st with ⟨tH, sH⟩
  rcases hCt : getCodeToken st with ⟨tC, sC⟩
  rcases hTt : getTextToken st with ⟨tT, sT⟩
  match hc : st.currentChar with
  | JSChar.undef =>
    simp only [getNextToken, hc, hTt] at h
    cases h
    have hx := getTextToken_type st
    rw [hTt] at hx
    exact absurd (hx.symm.trans ht) (by decide)
  | JSChar.char c =>
    simp only [getNextToken, hc] at h
    by_cases h0 : c = Char.ofNat 0
    · rw [if_pos h0] at h
      cases h
      refine ⟨rfl, ?_⟩
      simp only [getNextToken, hc]
      rw [if_pos h0]
    · rw [if_neg h0] at h
      exfalso
      split_ifs at h with h1 h2 h3 h4 h5 h6 h7 h8
      all_goals try rw [hHt] at h
      all_goals try rw [hCt] at h
      all_goals try rw [hTt] at h
      all_goals cases h
      · exact absurd ht (by decide)
      · exact absurd ht (by decide)
      · exact absurd ht (by decide)
      · exact absurd ht (by decide)
      · exact absurd ht (by decide)
      · have hx := getHeaderToken_ne_eof st
        rw [hHt] at hx
        exact hx ht
      · have hx := getCodeToken_ne_eof st
        rw [hCt] at hx
        exact hx ht
      · exact absurd ht (by decide)
      · have hx := getTextToken_type st
        rw [hTt] at hx
        exact absurd (hx.symm.trans ht) (by decide)

/-- C9 witness: the state reached after lexing "a" to exhaustion maps to
itself, at the concrete end-of-stream state with the NUL sentinel. -/
theorem C9_eof_idempotent_witness :
    (⟨['a'], 0, nulChar⟩ : LexState) = ⟨['a'], 0, nulChar⟩ ∧
    getNextToken ⟨['a'], 0, nulChar⟩ =
      Except.ok (⟨String.singleton (Char.ofNat 0), TokenType.EOF⟩, ⟨['a'], 0, nulChar⟩) :=
  C9_eof_idempotent ⟨['a'], 0, nulChar⟩
    ⟨String.singleton (Char.ofNat 0), TokenType.EOF⟩ ⟨['a'], 0, nulChar⟩ rfl rfl

/-- C10. On the empty input the constructor reads input[0] = undefined;
the first getNextToken therefore falls into the text rule, whose
alphanumeric test passes on the coerced text "undefined", so the first
token is a String holding the literal text "undefined" (the advance parks
the current character on NUL), and only the second call yields EOF. -/
theorem C10_empty_input_first_token_undefined :
    getNextToken (mkLexer "") =
      Except.ok (⟨"undefined", TokenType.STRING⟩, ⟨[], 0, nulChar⟩) ∧
    getNextToken ⟨[], 0, nulChar⟩ =
      Except.ok (⟨String.singleton (Char.ofNat 0), TokenType.EOF⟩, ⟨[], 0, nulChar⟩) :=
  ⟨rfl, rfl⟩

/-- C3 counterexample: at the character '!' (which begins no valid token)
getNextToken does not raise a lexical error; it returns a String token
with empty text and leaves the state untouched. -/
theorem C3_counterexample :
    getNextToken (mkLexer "!") =
      Except.ok (⟨"", TokenType.STRING⟩, ⟨['!'], 0, JSChar.char '!'⟩) ∧
    ¬ ∃ e, getNextToken (mkLexer "!") = Except.error e := by
  refine ⟨rfl, ?_⟩
  rintro ⟨e, he⟩
  rw [show getNextToken (mkLexer "!") =
    Except.ok (⟨"", TokenType.STRING⟩, ⟨['!'], 0, JSChar.char '!'⟩) from rfl] at he
  cases he

/-- C3 (amended). The only character that raises a LexicalError (carrying
the offending character and the position) is an asterisk not followed by
a second asterisk; every other character that begins no valid token (not
the sentinel, space, underscore, dash, hash, backtick, newline or an
alphanumeric) instead falls into the text rule and yields a String token
with empty text, leaving the lexer state unchanged. -/
theorem C3_invalid_character_behaviour :
    (∀ st : LexState, st.currentChar = JSChar.char (Char.ofNat 42) →
      st.peek 1 ≠ some (Char.ofNat 42) →
      getNextToken st =
        Except.error (LexError.invalidCharacter (JSChar.char (Char.ofNat 42)) st.position)) ∧
    (∀ (st : LexState) (c : Char), st.currentChar = JSChar.char c →
      isAlphaNumericChar c = false →
      c ≠ Char.ofNat 0 → c ≠ Char.ofNat 32 → c ≠ Char.ofNat 95 → c ≠ Char.ofNat 42 →
      c ≠ Char.ofNat 45 → c ≠ Char.ofNat 35 → c ≠ Char.ofNat 96 → c ≠ Char.ofNat 10 →
      getNextToken st = Except.ok (⟨"", TokenType.STRING⟩, st)) := by
  constructor
  · intro st hc hp
    simp only [getNextToken, hc]
    simp [hp]
  · intro st c hc halnum h0 h32 h95 h42 h45 h35 h96 h10
    simp only [getNextToken, hc]
    rw [if_neg h0, if_neg h32, if_neg h95, if_neg h42, if_neg h45, if_neg h35,
      if_neg h96, if_neg h10]
    have hga : getTextAux (st.input.length + 2) st "" = ("", st) := by
      show getTextAux (st.input.length + 1 + 1) st "" = ("", st)
      rw [getTextAux, hc]
      rw [if_neg ?hcond]
      case hcond =>
        show ¬ (isAlphaNumeric (JSChar.char c).toStr = true)
        rw [JSChar.toStr, isAlphaNumeric_singleton, halnum]
        decide
    simp only [getTextToken, hga]

/-- C3 witness: the lone asterisk in "*x" raises the lexical error at
position 0; the character '!' yields the empty String token. -/
theorem C3_invalid_character_witness :
    getNextToken (mkLexer "*x") =
      Except.error (LexError.invalidCharacter (JSChar.char (Char.ofNat 42)) 0) ∧
    getNextToken (mkLexer "!") = Except.ok (⟨"", TokenType.STRING⟩, mkLexer "!") :=
  ⟨C3_invalid_character_behaviour.1 (mkLexer "*x") rfl (by decide),
   C3_invalid_character_behaviour.2 (mkLexer "!") (Char.ofNat 33) rfl (by decide)
     (by decide) (by decide) (by decide) (by decide) (by decide) (by decide)
     (by decide) (by decide)⟩

/-- C4 counterexample: on a run of six hash marks the lexer does not
consume the entire run into the Header5 token; it consumes exactly five
characters and the sixth hash is lexed as a further Header1 token rather
than the run yielding a single Header5 followed by EOF. -/
theorem C4_counterexample :
    getNextToken (mkLexer "######") =
      Except.ok (⟨"#####", TokenType.HEADER5⟩, ⟨"######".toList, 5, JSChar.char '#'⟩) ∧
    getNextToken ⟨"######".toList, 5, JSChar.char '#'⟩ =
      Except.ok (⟨"#", TokenType.HEADER1⟩, ⟨"######".toList, 5, nulChar⟩) :=
  ⟨rfl, rfl⟩

/-- C4 (amended). At a position starting a run of at least five
consecutive hash marks, getNextToken yields one Header5 token whose text
is five hashes and advances by exactly five characters (the advance parks
on NUL when those five end the input); any remaining hashes of a longer
run are left for subsequent tokens. -/
theorem C4_header5_consumes_exactly_five (st : LexState)
    (hc : st.currentChar = JSChar.char (Char.ofNat 35))
    (h5 : ∀ i, i < 5 → jsCharAt st.input (st.position + i) = JSChar.char (Char.ofNat 35)) :
    getNextToken st = Except.ok (⟨"#####", TokenType.HEADER5⟩, st.advance 5) := by
  have hlen : st.position + 4 < st.input.length := by
    by_contra hcon
    have h4 := h5 4 (by decide)
    rw [jsCharAt, dif_neg hcon] at h4
    cases h4
  have hne : ¬ st.position + 1 = st.input.length := by omega
  have hseq : st.peekSequence 5 = "#####" := by
    rw [LexState.peekSequence, if_neg hne,
      show List.range 5 = [0, 1, 2, 3, 4] from rfl]
    simp only [List.map]
    rw [h5 0 (by decide), h5 1 (by decide), h5 2 (by decide), h5 3 (by decide),
      h5 4 (by decide)]
    rfl
  simp only [getNextToken, hc]
  simp [getHeaderToken, hseq]

/-- C4 witness: a run of exactly five hash marks lexes to the Header5
token and the advance by five. -/
theorem C4_header5_witness :
    getNextToken (mkLexer "#####") =
      Except.ok (⟨"#####", TokenType.HEADER5⟩, LexState.advance (mkLexer "#####") 5) :=
  C4_header5_consumes_exactly_five (mkLexer "#####") rfl (by decide)

/-- C1 counterexample: parsing "- a\n- b" does not yield a single
UnorderedListRoot child; the document has three children, because the
newline between the two marker lines ends the first list's loop and is
parsed as its own top-level NewLine node. -/
theorem C1_counterexample :
    (parse "- a\n- b").map (Except.map (fun d => d.children.map ASTNode.nodeType)) =
      some (Except.ok [NodeType.UnorderedListRoot, NodeType.NewLineNode,
        NodeType.UnorderedListRoot]) := rfl

/-- C1 (amended). Parsing "- a\n- b" yields a Document whose children are
an UnorderedListRoot holding one UnorderedListItem with a single Text
child "a", then a NewLine node, then a second UnorderedListRoot holding
one UnorderedListItem with a single Text child "b": the list loop stops
at the Newline token, so each marker line yields its own one-item list. -/
theorem C1_list_parse_result :
    parse "- a\n- b" = some (Except.ok (ASTNode.node NodeType.RootNode ⟨"Root", TokenType.UNTYPED⟩ [
      ASTNode.node NodeType.UnorderedListRoot ⟨"lis", TokenType.UNTYPED⟩ [
        ASTNode.node NodeType.UnorderedListItem ⟨"-", TokenType.UNORDEREDLI⟩ [
          ASTNode.node NodeType.StringNode ⟨"a", TokenType.STRING⟩ []]],
      ASTNode.node NodeType.NewLineNode ⟨"\n", TokenType.NEWLINE⟩ [],
      ASTNode.node NodeType.UnorderedListRoot ⟨"lis", TokenType.UNTYPED⟩ [
        ASTNode.node NodeType.UnorderedListItem ⟨"-", TokenType.UNORDEREDLI⟩ [
          ASTNode.node NodeType.StringNode ⟨"b", TokenType.STRING⟩ []]]])) := rfl

/-- C2 counterexample: at the top level of the document the maximal run
String "a", Space, String "b" of "a b" is not collapsed into one Text
node; textStmt emits the leading String token as its own Text node and
the remaining Space-led run collapses into a second Text node. -/
theorem C2_counterexample :
    parse "a b" = some (Except.ok (ASTNode.node NodeType.RootNode ⟨"Root", TokenType.UNTYPED⟩ [
      ASTNode.node NodeType.StringNode ⟨"a", TokenType.STRING⟩ [],
      ASTNode.node NodeType.StringNode ⟨" b", TokenType.STRING⟩ []])) := rfl

/-- Unfolding concatValues on an empty token list. -/
theorem concatValues_nil : concatValues [] = "" := rfl

/-- Unfolding concatValues on a token cons. -/
theorem concatValues_cons (t : Token) (l : List Token) :
    concatValues (t :: l) = t.tokenValue ++ concatValues l := rfl

/-- The allCharsStmt loop accumulates exactly the concatenated texts of
the maximal String/Space run starting at the lookahead, and stops with a
lookahead of neither kind. -/
theorem allCharsAux_run (fuel : Nat) :
    ∀ (acc : String) (ps : PState) (s : String) (ps' : PState),
      allCharsAux fuel acc ps = some (Except.ok (s, ps')) →
      s = acc ++ concatValues (allCharsRun fuel ps) ∧
      ¬ (ps'.currentToken.tokenType = TokenType.STRING ∨
         ps'.currentToken.tokenType = TokenType.SPACE) := by
  induction fuel with
  | zero =>
    intro acc ps s ps' h
    cases h
  | succ fuel ih =>
    intro acc ps s ps' h
    rw [allCharsAux] at h
    by_cases hcond : (ps.currentToken.tokenType = TokenType.STRING ∨
        ps.currentToken.tokenType = TokenType.SPACE)
    · rw [if_pos hcond] at h
      cases heat : eat ps.currentToken.tokenType ps with
      | error e =>
        rw [heat, pbind_error] at h
        cases h
      | ok ps₁ =>
        rw [heat, pbind_ok] at h
        obtain ⟨h1, h2⟩ := ih (acc ++ ps.currentToken.tokenValue) ps₁ s ps' h
        refine ⟨?_, h2⟩
        rw [h1, allCharsRun, if_pos hcond, heat, runStep_ok, concatValues_cons,
          String.append_assoc]
    · rw [if_neg hcond] at h
      cases h
      refine ⟨?_, hcond⟩
      rw [allCharsRun, if_neg hcond, concatValues_nil, String.append_empty]

/-- C2 (amended). Wherever the parser parses text content through
allCharsStmt — emphasis interiors, monospace and code bodies, header
remainders, list items and top-level Space-led runs — the whole maximal
run of consecutive String and Space tokens collapses into a single Text
node (a StringNode with no children) whose text is the concatenation of
the run's token texts, never one node per word, and the lookahead left
behind is of neither kind (the run is maximal). The one context this does
not cover is a top-level run beginning with a String token, which
textStmt splits instead: see C2_counterexample. -/
theorem C2_allchars_collapses_run (fuel : Nat) (ps : PState) (n : ASTNode) (ps' : PState)
    (h : allCharsStmt fuel ps = some (Except.ok (n, ps'))) :
    n = ASTNode.node NodeType.StringNode
          ⟨concatValues (allCharsRun fuel ps), TokenType.STRING⟩ [] ∧
    ¬ (ps'.currentToken.tokenType = TokenType.STRING ∨
       ps'.currentToken.tokenType = TokenType.SPACE) := by
  rw [allCharsStmt] at h
  cases haux : allCharsAux fuel "" ps with
  | none =>
    rw [haux, rbind_none] at h
    cases h
  | some r =>
    cases r with
    | error e =>
      rw [haux, rbind_error] at h
      cases h
    | ok p =>
      obtain ⟨s, ps₁⟩ := p
      rw [haux, rbind_ok] at h
      cases h
      obtain ⟨h1, h2⟩ := allCharsAux_run fuel "" ps _ _ haux
      refine ⟨?_, h2⟩
      rw [h1, String.empty_append]

/-- C2 witness: at the state reached after priming the parser on "a b"
with the String lookahead "a", allCharsStmt collapses the whole
String-Space-String run into the single Text node "a b" and stops at the
EOF lookahead. -/
theorem C2_allchars_witness :
    allCharsStmt 8 ⟨⟨['a', ' ', 'b'], 1, JSChar.char ' '⟩, ⟨"a", TokenType.STRING⟩⟩ =
      some (Except.ok (ASTNode.node NodeType.StringNode ⟨"a b", TokenType.STRING⟩ [],
        ⟨⟨['a', ' ', 'b'], 2, nulChar⟩,
         ⟨String.singleton (Char.ofNat 0), TokenType.EOF⟩⟩)) ∧
    ASTNode.node NodeType.StringNode ⟨"a b", TokenType.STRING⟩ [] =
      ASTNode.node NodeType.StringNode
        ⟨concatValues (allCharsRun 8
            ⟨⟨['a', ' ', 'b'], 1, JSChar.char ' '⟩, ⟨"a", TokenType.STRING⟩⟩),
         TokenType.STRING⟩ [] ∧
    ¬ ((⟨⟨['a', ' ', 'b'], 2, nulChar⟩,
         ⟨String.singleton (Char.ofNat 0), TokenType.EOF⟩⟩ : PState).currentToken.tokenType
          = TokenType.STRING ∨
       (⟨⟨['a', ' ', 'b'], 2, nulChar⟩,
         ⟨String.singleton (Char.ofNat 0), TokenType.EOF⟩⟩ : PState).currentToken.tokenType
          = TokenType.SPACE) :=
  ⟨rfl,
   (C2_allchars_collapses_run 8
     ⟨⟨['a', ' ', 'b'], 1, JSChar.char ' '⟩, ⟨"a", TokenType.STRING⟩⟩
     (ASTNode.node NodeType.StringNode ⟨"a b", TokenType.STRING⟩ [])
     ⟨⟨['a', ' ', 'b'], 2, nulChar⟩,
      ⟨String.singleton (Char.ofNat 0), TokenType.EOF⟩⟩ rfl).1,
   (C2_allchars_collapses_run 8
     ⟨⟨['a', ' ', 'b'], 1, JSChar.char ' '⟩, ⟨"a", TokenType.STRING⟩⟩
     (ASTNode.node NodeType.StringNode ⟨"a b", TokenType.STRING⟩ [])
     ⟨⟨['a', ' ', 'b'], 2, nulChar⟩,
      ⟨String.singleton (Char.ofNat 0), TokenType.EOF⟩⟩ rfl).2⟩

/-- A successful eat implies the lookahead had the requested kind. -/
theorem eat_ok_type (tt : TokenType) (ps ps' : PState)
    (h : eat tt ps = Except.ok ps') : ps.currentToken.tokenType = tt := by
  rw [eat] at h
  by_cases hk : ps.currentToken.tokenType = tt
  · exact hk
  · rw [if_neg hk] at h
    cases h

/-- A successful allCharsStmt always produces a StringNode with no
children. -/
theorem allCharsStmt_shape (fuel : Nat) (ps : PState) (n : ASTNode) (ps' : PState)
    (h : allCharsStmt fuel ps = some (Except.ok (n, ps'))) :
    ∃ s, n = ASTNode.node NodeType.StringNode ⟨s, TokenType.STRING⟩ [] := by
  rw [allCharsStmt] at h
  cases haux : allCharsAux fuel "" ps with
  | none =>
    rw [haux, rbind_none] at h
    cases h
  | some r =>
    cases r with
    | error e =>
      rw [haux, rbind_error] at h
      cases h
    | ok p =>
      obtain ⟨s, psx⟩ := p
      rw [haux, rbind_ok] at h
      cases h
      exact ⟨s, rfl⟩

/-- C5. Every fenced code block the parser accepts yields a Code node
whose children are exactly one Text node (the collapsed body), whose
languageName is the text of the lookahead immediately after the opening
fence (a String token, since the following eat succeeded); and when the
token after that String is not a Newline, codeStmt raises the syntax
error carrying that unexpected token. -/
theorem C5_code_block_shape :
    (∀ (fuel : Nat) (ps : PState) (n : ASTNode) (ps' : PState),
      codeStmt fuel ps = some (Except.ok (n, ps')) →
      ∃ (ps₁ : PState) (body : String),
        eat TokenType.CODE ps = Except.ok ps₁ ∧
        ps₁.currentToken.tokenType = TokenType.STRING ∧
        n = ASTNode.codeNode ps.currentToken ps₁.currentToken.tokenValue
              [ASTNode.node NodeType.StringNode ⟨body, TokenType.STRING⟩ []]) ∧
    (∀ (fuel : Nat) (ps ps₁ ps₂ : PState),
      eat TokenType.CODE ps = Except.ok ps₁ →
      eat TokenType.STRING ps₁ = Except.ok ps₂ →
      ps₂.currentToken.tokenType ≠ TokenType.NEWLINE →
      codeStmt (fuel + 1) ps = some (Except.error (PError.invalidToken ps₂.currentToken))) := by
  constructor
  · intro fuel ps n ps' h
    cases fuel with
    | zero => cases h
    | succ fuel =>
      rw [codeStmt] at h
      cases h1 : eat TokenType.CODE ps with
      | error e =>
        rw [h1, pbind_error] at h
        cases h
      | ok ps₁ =>
        rw [h1, pbind_ok] at h
        cases h2 : eat TokenType.STRING ps₁ with
        | error e =>
          rw [h2, pbind_error] at h
          cases h
        | ok ps₂ =>
          rw [h2, pbind_ok] at h
          cases h3 : eat TokenType.NEWLINE ps₂ with
          | error e =>
            rw [h3, pbind_error] at h
            cases h
          | ok ps₃ =>
            rw [h3, pbind_ok] at h
            cases h4 : allCharsStmt fuel ps₃ with
            | none =>
              rw [h4, rbind_none] at h
              cases h
            | some r4 =>
              cases r4 with
              | error e =>
                rw [h4, rbind_error] at h
                cases h
              | ok p4 =>
                obtain ⟨m, ps₄⟩ := p4
                rw [h4, rbind_ok] at h
                cases h5 : eat TokenType.CODE ps₄ with
                | error e =>
                  rw [h5, pbind_error] at h
                  cases h
                | ok ps₅ =>
                  rw [h5, pbind_ok] at h
                  cases h
                  obtain ⟨body, hm⟩ := allCharsStmt_shape fuel ps₃ m ps₄ h4
                  exact ⟨ps₁, body, rfl, eat_ok_type _ _ _ h2, by rw [hm]⟩
  · intro fuel ps ps₁ ps₂ h1 h2 hne
    rw [codeStmt, h1, pbind_ok, h2, pbind_ok, eat, if_neg hne, pbind_error]

/-- C5 witness: the block "```ts\ncode body```" parses to a Code node
with language "ts" and the single Text child "code body"; the block
"```ts code```" (Space instead of the mandatory Newline after the
language tag) raises the syntax error on the Space token. -/
theorem C5_code_block_witness :
    (∃ (ps₁ : PState) (body : String),
      eat TokenType.CODE
          ⟨⟨"```ts\ncode body```".toList, 3, JSChar.char 't'⟩, ⟨"```", TokenType.CODE⟩⟩ =
        Except.ok ps₁ ∧
      ps₁.currentToken.tokenType = TokenType.STRING ∧
      ASTNode.codeNode ⟨"```", TokenType.CODE⟩ "ts"
          [ASTNode.node NodeType.StringNode ⟨"code body", TokenType.STRING⟩ []] =
        ASTNode.codeNode
          (⟨⟨"```ts\ncode body```".toList, 3, JSChar.char 't'⟩,
            ⟨"```", TokenType.CODE⟩⟩ : PState).currentToken
          ps₁.currentToken.tokenValue
          [ASTNode.node NodeType.StringNode ⟨body, TokenType.STRING⟩ []]) ∧
    codeStmt 20
        ⟨⟨"```ts code```".toList, 3, JSChar.char 't'⟩, ⟨"```", TokenType.CODE⟩⟩ =
      some (Except.error (PError.invalidToken ⟨" ", TokenType.SPACE⟩)) := by
  constructor
  · exact C5_code_block_shape.1 20
      ⟨⟨"```ts\ncode body```".toList, 3, JSChar.char 't'⟩, ⟨"```", TokenType.CODE⟩⟩
      (ASTNode.codeNode ⟨"```", TokenType.CODE⟩ "ts"
        [ASTNode.node NodeType.StringNode ⟨"code body", TokenType.STRING⟩ []])
      ⟨⟨"```ts\ncode body```".toList, 15, nulChar⟩,
       ⟨String.singleton (Char.ofNat 0), TokenType.EOF⟩⟩ rfl
  · exact C5_code_block_shape.2 19
      ⟨⟨"```ts code```".toList, 3, JSChar.char 't'⟩, ⟨"```", TokenType.CODE⟩⟩
      ⟨⟨"```ts code```".toList, 5, JSChar.char ' '⟩, ⟨"ts", TokenType.STRING⟩⟩
      ⟨⟨"```ts code```".toList, 6, JSChar.char 'c'⟩, ⟨" ", TokenType.SPACE⟩⟩
      rfl rfl (by decide)

/-- A successful italicStmt always produces an Italic node. -/
theorem italicStmt_nodeType (fuel : Nat) (ps : PState) (n : ASTNode) (ps' : PState)
    (h : italicStmt fuel ps = some (Except.ok (n, ps'))) :
    n.nodeType = NodeType.Italic := by
  cases fuel with
  | zero => cases h
  | succ fuel =>
    rw [italicStmt] at h
    cases h1 : eat TokenType.ITALIC ps with
    | error e =>
      rw [h1, pbind_error] at h
      cases h
    | ok ps₁ =>
      rw [h1, pbind_ok] at h
      cases h2 : innerItalicStmt fuel [] ps₁ with
      | none =>
        rw [h2, rbind_none] at h
        cases h
      | some r =>
        cases r with
        | error e =>
          rw [h2, rbind_error] at h
          cases h
        | ok p =>
          obtain ⟨ns, ps₂⟩ := p
          rw [h2, rbind_ok] at h
          cases h3 : eat TokenType.ITALIC ps₂ with
          | error e =>
            rw [h3, pbind_error] at h
            cases h
          | ok ps₃ =>
            rw [h3, pbind_ok] at h
            cases h
            rfl

/-- A successful boldStmt always produces a Bold node. -/
theorem boldStmt_nodeType (fuel : Nat) (ps : PState) (n : ASTNode) (ps' : PState)
    (h : boldStmt fuel ps = some (Except.ok (n, ps'))) :
    n.nodeType = NodeType.Bold := by
  cases fuel with
  | zero => cases h
  | succ fuel =>
    rw [boldStmt] at h
    cases h1 : eat TokenType.BOLD ps with
    | error e =>
      rw [h1, pbind_error] at h
      cases h
    | ok ps₁ =>
      rw [h1, pbind_ok] at h
      cases h2 : innerBoldStmt fuel [] ps₁ with
      | none =>
        rw [h2, rbind_none] at h
        cases h
      | some r =>
        cases r with
        | error e =>
          rw [h2, rbind_error] at h
          cases h
        | ok p =>
          obtain ⟨ns, ps₂⟩ := p
          rw [h2, rbind_ok] at h
          cases h3 : eat TokenType.BOLD ps₂ with
          | error e =>
            rw [h3, pbind_error] at h
            cases h
          | ok ps₃ =>
            rw [h3, pbind_ok] at h
            cases h
            rfl

/-- The kinds of nodes the emphasis rules can place as children: a Bold
node's children come from innerBoldStmt and are Italic or StringNode
nodes, an Italic node's children come from innerItalicStmt and are Bold
or StringNode nodes. -/
theorem emphasis_children (fuel : Nat) :
    (∀ ps n ps', boldStmt fuel ps = some (Except.ok (n, ps')) →
      ∀ c ∈ n.children, c.nodeType = NodeType.Italic ∨ c.nodeType = NodeType.StringNode) ∧
    (∀ ps n ps', italicStmt fuel ps = some (Except.ok (n, ps')) →
      ∀ c ∈ n.children, c.nodeType = NodeType.Bold ∨ c.nodeType = NodeType.StringNode) ∧
    (∀ ns ps r ps', innerBoldStmt fuel ns ps = some (Except.ok (r, ps')) →
      (∀ c ∈ ns, c.nodeType = NodeType.Italic ∨ c.nodeType = NodeType.StringNode) →
      ∀ c ∈ r, c.nodeType = NodeType.Italic ∨ c.nodeType = NodeType.StringNode) ∧
    (∀ ns ps r ps', innerItalicStmt fuel ns ps = some (Except.ok (r, ps')) →
      (∀ c ∈ ns, c.nodeType = NodeType.Bold ∨ c.nodeType = NodeType.StringNode) →
      ∀ c ∈ r, c.nodeType = NodeType.Bold ∨ c.nodeType = NodeType.StringNode) := by
  induction fuel with
  | zero =>
    refine ⟨?_, ?_, ?_, ?_⟩
    · intro ps n ps' h
      cases h
    · intro ps n ps' h
      cases h
    · intro ns ps r ps' h
      cases h
    · intro ns ps r ps' h
      cases h
  | succ fuel ih =>
    obtain ⟨ihB, ihI, ihIB, ihII⟩ := ih
    refine ⟨?_, ?_, ?_, ?_⟩
    · intro ps n ps' h
      rw [boldStmt] at h
      cases h1 : eat TokenType.BOLD ps with
      | error e =>
        rw [h1, pbind_error] at h
        cases h
      | ok ps₁ =>
        rw [h1, pbind_ok] at h
        cases h2 : innerBoldStmt fuel [] ps₁ with
        | none =>
          rw [h2, rbind_none] at h
          cases h
        | some r2 =>
          cases r2 with
          | error e =>
            rw [h2, rbind_error] at h
            cases h
          | ok p =>
            obtain ⟨ns, ps₂⟩ := p
            rw [h2, rbind_ok] at h
            cases h3 : eat TokenType.BOLD ps₂ with
            | error e =>
              rw [h3, pbind_error] at h
              cases h
            | ok ps₃ =>
              rw [h3, pbind_ok] at h
              cases h
              exact ihIB [] ps₁ ns ps₂ h2 (fun c hc => absurd hc (List.not_mem_nil c))
    · intro ps n ps' h
      rw [italicStmt] at h
      cases h1 : eat TokenType.ITALIC ps with
      | error e =>
        rw [h1, pbind_error] at h
        cases h
      | ok ps₁ =>
        rw [h1, pbind_ok] at h
        cases h2 : innerItalicStmt fuel [] ps₁ with
        | none =>
          rw [h2, rbind_none] at h
          cases h
        | some r2 =>
          cases r2 with
          | error e =>
            rw [h2, rbind_error] at h
            cases h
          | ok p =>
            obtain ⟨ns, ps₂⟩ := p
            rw [h2, rbind_ok] at h
            cases h3 : eat TokenType.ITALIC ps₂ with
            | error e =>
              rw [h3, pbind_error] at h
              cases h
            | ok ps₃ =>
              rw [h3, pbind_ok] at h
              cases h
              exact ihII [] ps₁ ns ps₂ h2 (fun c hc => absurd hc (List.not_mem_nil c))
    · intro ns ps r ps' h hns
      rw [innerBoldStmt] at h
      by_cases hI : ps.currentToken.tokenType = TokenType.ITALIC
      · rw [if_pos hI] at h
        cases h2 : italicStmt fuel ps with
        | none =>
          rw [h2, rbind_none] at h
          cases h
        | some r2 =>
          cases r2 with
          | error e =>
            rw [h2, rbind_error] at h
            cases h
          | ok p =>
            obtain ⟨nI, psI⟩ := p
            rw [h2, rbind_ok] at h
            refine ihIB (ns ++ [nI]) psI r ps' h ?_
            intro c hc
            rcases List.mem_append.1 hc with hcl | hcr
            · exact hns c hcl
            · rw [List.mem_singleton.1 hcr]
              exact Or.inl (italicStmt_nodeType fuel ps nI psI h2)
      · rw [if_neg hI] at h
        by_cases hS : ps.currentToken.tokenType = TokenType.STRING
        · rw [if_pos hS] at h
          cases h2 : allCharsStmt fuel ps with
          | none =>
            rw [h2, rbind_none] at h
            cases h
          | some r2 =>
            cases r2 with
            | error e =>
              rw [h2, rbind_error] at h
              cases h
            | ok p =>
              obtain ⟨nS, psS⟩ := p
              rw [h2, rbind_ok] at h
              refine ihIB (ns ++ [nS]) psS r ps' h ?_
              intro c hc
              rcases List.mem_append.1 hc with hcl | hcr
              · exact hns c hcl
              · rw [List.mem_singleton.1 hcr]
                obtain ⟨s, hsh⟩ := allCharsStmt_shape fuel ps nS psS h2
                right
                rw [hsh]
                rfl
        · rw [if_neg hS] at h
          cases h
          exact hns
    · intro ns ps r ps' h hns
      rw [innerItalicStmt] at h
      by_cases hB : ps.currentToken.tokenType = TokenType.BOLD
      · rw [if_pos hB] at h
        cases h2 : boldStmt fuel ps with
        | none =>
          rw [h2, rbind_none] at h
          cases h
        | some r2 =>
          cases r2 with
          | error e =>
            rw [h2, rbind_error] at h
            cases h
          | ok p =>
            obtain ⟨nB, psB⟩ := p
            rw [h2, rbind_ok] at h
            refine ihII (ns ++ [nB]) psB r ps' h ?_
            intro c hc
            rcases List.mem_append.1 hc with hcl | hcr
            · exact hns c hcl
            · rw [List.mem_singleton.1 hcr]
              exact Or.inl (boldStmt_nodeType fuel ps nB psB h2)
      · rw [if_neg hB] at h
        by_cases hS : ps.currentToken.tokenType = TokenType.STRING
        · rw [if_pos hS] at h
          cases h2 : allCharsStmt fuel ps with
          | none =>
            rw [h2, rbind_none] at h
            cases h
          | some r2 =>
            cases r2 with
            | error e =>
              rw [h2, rbind_error] at h
              cases h
            | ok p =>
              obtain ⟨nS, psS⟩ := p
              rw [h2, rbind_ok] at h
              refine ihII (ns ++ [nS]) psS r ps' h ?_
              intro c hc
              rcases List.mem_append.1 hc with hcl | hcr
              · exact hns c hcl
              · rw [List.mem_singleton.1 hcr]
                obtain ⟨s, hsh⟩ := allCharsStmt_shape fuel ps nS psS h2
                right
                rw [hsh]
                rfl
        · rw [if_neg hS] at h
          cases h
          exact hns

/-- C7. Parsing "_**Hello**_" yields a Document with exactly one Italic
child whose single child is a Bold node whose single child is the Text
node "Hello" (cross-nesting is grammatical); and in general a Bold node's
children are only Italic or Text nodes, an Italic node's children only
Bold or Text nodes. -/
theorem C7_cross_nesting :
    parse "_**Hello**_" =
      some (Except.ok (ASTNode.node NodeType.RootNode ⟨"Root", TokenType.UNTYPED⟩ [
        ASTNode.node NodeType.Italic ⟨"_", TokenType.ITALIC⟩ [
          ASTNode.node NodeType.Bold ⟨"**", TokenType.BOLD⟩ [
            ASTNode.node NodeType.StringNode ⟨"Hello", TokenType.STRING⟩ []]]])) ∧
    (∀ fuel ps n ps', boldStmt fuel ps = some (Except.ok (n, ps')) →
      ∀ c ∈ n.children, c.nodeType = NodeType.Italic ∨ c.nodeType = NodeType.StringNode) ∧
    (∀ fuel ps n ps', italicStmt fuel ps = some (Except.ok (n, ps')) →
      ∀ c ∈ n.children, c.nodeType = NodeType.Bold ∨ c.nodeType = NodeType.StringNode) :=
  ⟨rfl, fun fuel => (emphasis_children fuel).1, fun fuel => (emphasis_children fuel).2.1⟩

/-- C7 witness: concrete Bold and Italic parses whose children satisfy
the kind restriction. -/
theorem C7_cross_nesting_witness :
    boldStmt 20 ⟨⟨"**Hello**".toList, 2, JSChar.char 'H'⟩, ⟨"**", TokenType.BOLD⟩⟩ =
      some (Except.ok (ASTNode.node NodeType.Bold ⟨"**", TokenType.BOLD⟩ [
        ASTNode.node NodeType.StringNode ⟨"Hello", TokenType.STRING⟩ []],
        ⟨⟨"**Hello**".toList, 7, nulChar⟩,
         ⟨String.singleton (Char.ofNat 0), TokenType.EOF⟩⟩)) ∧
    (∀ c ∈ (ASTNode.node NodeType.Bold ⟨"**", TokenType.BOLD⟩ [
        ASTNode.node NodeType.StringNode ⟨"Hello", TokenType.STRING⟩ []]).children,
      c.nodeType = NodeType.Italic ∨ c.nodeType = NodeType.StringNode) ∧
    (∀ c ∈ (ASTNode.node NodeType.Italic ⟨"_", TokenType.ITALIC⟩ [
        ASTNode.node NodeType.StringNode ⟨"Hi", TokenType.STRING⟩ []]).children,
      c.nodeType = NodeType.Bold ∨ c.nodeType = NodeType.StringNode) :=
  ⟨rfl,
   C7_cross_nesting.2.1 20
     ⟨⟨"**Hello**".toList, 2, JSChar.char 'H'⟩, ⟨"**", TokenType.BOLD⟩⟩
     (ASTNode.node NodeType.Bold ⟨"**", TokenType.BOLD⟩ [
       ASTNode.node NodeType.StringNode ⟨"Hello", TokenType.STRING⟩ []])
     ⟨⟨"**Hello**".toList, 7, nulChar⟩,
      ⟨String.singleton (Char.ofNat 0), TokenType.EOF⟩⟩ rfl,
   C7_cross_nesting.2.2 20
     ⟨⟨"_Hi_".toList, 1, JSChar.char 'H'⟩, ⟨"_", TokenType.ITALIC⟩⟩
     (ASTNode.node NodeType.Italic ⟨"_", TokenType.ITALIC⟩ [
       ASTNode.node NodeType.StringNode ⟨"Hi", TokenType.STRING⟩ []])
     ⟨⟨"_Hi_".toList, 3, nulChar⟩,
      ⟨String.singleton (Char.ofNat 0), TokenType.EOF⟩⟩ rfl⟩

/-- C8. Parsing "### Title" yields a Document with one Header3 node whose
single child is the Text node "Title"; and whenever a header token is not
followed by a Space token, headerStmt raises the syntax error carrying
the unexpected token found instead of the Space. -/
theorem C8_header3_parse :
    parse "### Title" =
      some (Except.ok (ASTNode.node NodeType.RootNode ⟨"Root", TokenType.UNTYPED⟩ [
        ASTNode.node NodeType.Header3 ⟨"###", TokenType.HEADER3⟩ [
          ASTNode.node NodeType.StringNode ⟨"Title", TokenType.STRING⟩ []]])) ∧
    (∀ (fuel : Nat) (ps : PState) (nt : NodeType) (ps₁ : PState),
      headersMap ps.currentToken.tokenType = some nt →
      eat ps.currentToken.tokenType ps = Except.ok ps₁ →
      ps₁.currentToken.tokenType ≠ TokenType.SPACE →
      headerStmt (fuel + 1) ps =
        some (Except.error (PError.invalidToken ps₁.currentToken))) := by
  constructor
  · rfl
  · intro fuel ps nt ps₁ hmap heat hne
    simp only [headerStmt, hmap]
    rw [heat, pbind_ok, eat, if_neg hne, pbind_error]

/-- C8 witness: the input "###Title" reaches headerStmt with the String
token "Title" instead of the mandatory Space and raises the syntax error
on it. -/
theorem C8_header3_witness :
    headerStmt 20 ⟨⟨"###Title".toList, 3, JSChar.char 'T'⟩, ⟨"###", TokenType.HEADER3⟩⟩ =
      some (Except.error (PError.invalidToken ⟨"Title", TokenType.STRING⟩)) :=
  C8_header3_parse.2 19
    ⟨⟨"###Title".toList, 3, JSChar.char 'T'⟩, ⟨"###", TokenType.HEADER3⟩⟩
    NodeType.Header3
    ⟨⟨"###Title".toList, 7, nulChar⟩, ⟨"Title", TokenType.STRING⟩⟩
    rfl rfl (by decide)

/-- Prepending one character to a string at the character-list level. -/
theorem singleton_append_mk (c : Char) (l : List Char) :
    String.singleton c ++ String.mk l = String.mk (c :: l) := rfl

/-- The text scan on a wholly alphanumeric remainder consumes it entirely:
starting at a position with k ≥ 1 characters left, all alphanumeric, the
loop accumulates exactly those characters and ends parked on the NUL
sentinel at the last index. -/
theorem getTextAux_alnum (k : Nat) :
    ∀ (st : LexState) (acc : String) (fuel : Nat),
      st.position + k = st.input.length →
      1 ≤ k →
      st.currentChar = jsCharAt st.input st.position →
      (∀ i (hi : i < st.input.length), st.position ≤ i →
        isAlphaNumericChar (st.input.get ⟨i, hi⟩) = true) →
      k + 1 ≤ fuel →
      getTextAux fuel st acc =
        (acc ++ String.mk (st.input.drop st.position),
         ⟨st.input, st.input.length - 1, nulChar⟩) := by
  induction k with
  | zero =>
    intro st acc fuel hlen hk
    exact absurd hk (by decide)
  | succ k ih =>
    intro st acc fuel hlen hk hcur hal hfuel
    have hpos : st.position < st.input.length := by omega
    have hc : st.currentChar = JSChar.char (st.input.get ⟨st.position, hpos⟩) := by
      rw [hcur, jsCharAt, dif_pos hpos]
    have hcal : isAlphaNumericChar (st.input.get ⟨st.position, hpos⟩) = true :=
      hal st.position hpos le_rfl
    obtain ⟨f, rfl⟩ : ∃ f, fuel = f + 1 := ⟨fuel - 1, by omega⟩
    rw [getTextAux, hc]
    simp only [JSChar.toStr]
    rw [isAlphaNumeric_singleton, if_pos hcal]
    have hdrop : st.input.drop st.position =
        st.input.get ⟨st.position, hpos⟩ :: st.input.drop (st.position + 1) := by
      rw [List.drop_eq_getElem_cons hpos, List.get_eq_getElem]
    by_cases hk0 : k = 0
    · subst hk0
      have hadv : st.advance 1 = ⟨st.input, st.position, nulChar⟩ := by
        rw [LexState.advance, if_pos (by omega)]
      rw [hadv]
      obtain ⟨g, rfl⟩ : ∃ g, f = g + 1 := ⟨f - 1, by omega⟩
      rw [getTextAux,
        if_neg (show ¬(isAlphaNumeric (nulChar.toStr) = true) from by decide)]
      have hpos1 : st.position = st.input.length - 1 := by omega
      have hdrop1 : st.input.drop st.position = [st.input.get ⟨st.position, hpos⟩] := by
        rw [hdrop, show st.position + 1 = st.input.length from by omega, List.drop_length]
      rw [Prod.mk.injEq]
      constructor
      · rw [hdrop1, show String.mk [st.input.get ⟨st.position, hpos⟩] =
          String.singleton (st.input.get ⟨st.position, hpos⟩) from rfl]
      · rw [hpos1]
    · have hppos : st.position + 1 < st.input.length := by omega
      have hadv : st.advance 1 =
          ⟨st.input, st.position + 1, jsCharAt st.input (st.position + 1)⟩ := by
        rw [LexState.advance, if_neg (by omega)]
      rw [hadv]
      rw [ih ⟨st.input, st.position + 1, jsCharAt st.input (st.position + 1)⟩
        (acc ++ String.singleton (st.input.get ⟨st.position, hpos⟩)) f
        (show st.position + 1 + k = st.input.length from by omega)
        (by omega) rfl
        (fun i hi hle => hal i hi (Nat.le_of_succ_le hle))
        (by omega)]
      rw [Prod.mk.injEq]
      constructor
      · rw [String.append_assoc, singleton_append_mk, ← hdrop]
      · rfl

/-- C6. For every alphanumeric word w, parsing "**" followed by w (a bold
span opened but never closed before the end of the input) aborts with the
syntax error raised by the failed expect of the closing bold delimiter:
the unexpected token it carries is the EndOfInput token, and no AST is
returned. -/
theorem C6_unterminated_bold (w : String)
    (hw : ∀ c ∈ w.toList, isAlphaNumericChar c = true) :
    parse ("**" ++ w) =
      some (Except.error (PError.invalidToken
        ⟨String.singleton (Char.ofNat 0), TokenType.EOF⟩)) := by
  have hdata : ("**" ++ w).toList = '*' :: '*' :: w.toList := by
    show ("**" ++ w).data = '*' :: '*' :: w.data
    rw [String.data_append]
    rfl
  have hmklex : mkLexer ("**" ++ w) = ⟨'*' :: '*' :: w.toList, 0, JSChar.char '*'⟩ := by
    rw [mkLexer, hdata]
    rw [LexState.mk.injEq]
    refine ⟨rfl, rfl, ?_⟩
    rw [jsCharAt, dif_pos (show 0 < ('*' :: '*' :: w.toList).length from by simp)]
    rfl
  have hpeek : (⟨'*' :: '*' :: w.toList, 0, JSChar.char '*'⟩ : LexState).peek 1 =
      some (Char.ofNat 42) := by
    rw [LexState.peek,
      dif_pos (show 0 + 1 < ('*' :: '*' :: w.toList).length from by simp)]
    rfl
  have htok1 : getNextToken ⟨'*' :: '*' :: w.toList, 0, JSChar.char '*'⟩ =
      Except.ok (⟨"**", TokenType.BOLD⟩,
        LexState.advance ⟨'*' :: '*' :: w.toList, 0, JSChar.char '*'⟩ 2) := by
    simp only [getNextToken, hpeek]
    rw [if_neg (show ¬('*' = Char.ofNat 0) from by decide),
      if_neg (show ¬('*' = Char.ofNat 32) from by decide),
      if_neg (show ¬('*' = Char.ofNat 95) from by decide),
      if_pos trivial, if_pos trivial]
  have hmk : mkParser ("**" ++ w) =
      Except.ok ⟨LexState.advance ⟨'*' :: '*' :: w.toList, 0, JSChar.char '*'⟩ 2,
        ⟨"**", TokenType.BOLD⟩⟩ := by
    simp only [mkParser, hmklex, htok1]
  have hfe : parseFuel ("**" ++ w) = 4 * w.length + 64 + 8 := by
    rw [parseFuel, String.length_append, show ("**" : String).length = 2 from rfl]
    omega
  simp only [parse, hmk, pbind_ok, hfe, rootStmt]
  cases hwl : w.toList with
  | nil =>
    have hadv : LexState.advance ⟨['*', '*'], 0, JSChar.char '*'⟩ 2 =
        ⟨['*', '*'], 0, nulChar⟩ := rfl
    rw [hadv]
    rfl
  | cons c₀ rest =>
    rw [hwl] at hw
    have hadv : LexState.advance ⟨'*' :: '*' :: c₀ :: rest, 0, JSChar.char '*'⟩ 2 =
        ⟨'*' :: '*' :: c₀ :: rest, 2, JSChar.char c₀⟩ := by
      rw [LexState.advance,
        if_neg (show ¬(0 + 2 ≥ ('*' :: '*' :: c₀ :: rest).length) from by
          simp only [List.length_cons]
          omega)]
      rw [LexState.mk.injEq]
      refine ⟨rfl, rfl, ?_⟩
      rw [jsCharAt,
        dif_pos (show 0 + 2 < ('*' :: '*' :: c₀ :: rest).length from by
          simp only [List.length_cons]
          omega)]
      rfl
    rw [hadv]
    have hc₀ : isAlphaNumericChar c₀ = true := hw c₀ (List.mem_cons_self c₀ rest)
    obtain ⟨hn0, hn32, hn95, hn42, hn45, hn35, hn96, hn10⟩ := alnum_ne_special c₀ hc₀
    have htext : getNextToken ⟨'*' :: '*' :: c₀ :: rest, 2, JSChar.char c₀⟩ =
        Except.ok (⟨String.mk (c₀ :: rest), TokenType.STRING⟩,
          ⟨'*' :: '*' :: c₀ :: rest, rest.length + 2, nulChar⟩) := by
      simp only [getNextToken]
      rw [if_neg hn0, if_neg hn32, if_neg hn95, if_neg hn42, if_neg hn45, if_neg hn35,
        if_neg hn96, if_neg hn10]
      simp only [getTextToken]
      rw [getTextAux_alnum (rest.length + 1)
        ⟨'*' :: '*' :: c₀ :: rest, 2, JSChar.char c₀⟩ ""
        (('*' :: '*' :: c₀ :: rest).length + 2)
        (show 2 + (rest.length + 1) = ('*' :: '*' :: c₀ :: rest).length from by
          simp only [List.length_cons]
          omega)
        (by omega)
        (by
          show JSChar.char c₀ = jsCharAt ('*' :: '*' :: c₀ :: rest) 2
          rw [jsCharAt,
            dif_pos (show 2 < ('*' :: '*' :: c₀ :: rest).length from by
              simp only [List.length_cons]
              omega)]
          rfl)
        (by
          intro i hi hle
          have hle2 : 2 ≤ i := hle
          have hi2 : i < ('*' :: '*' :: c₀ :: rest).length := hi
          rw [List.length_cons, List.length_cons, List.length_cons] at hi2
          obtain ⟨j, rfl⟩ : ∃ j, i = j + 2 := ⟨i - 2, by omega⟩
          have hj : j < (c₀ :: rest).length := by
            rw [List.length_cons]
            omega
          have hget : ('*' :: '*' :: c₀ :: rest).get ⟨j + 2, hi⟩ =
              (c₀ :: rest).get ⟨j, hj⟩ := rfl
          rw [hget]
          have hmem : (c₀ :: rest).get ⟨j, hj⟩ ∈ c₀ :: rest :=
            List.get_mem (c₀ :: rest) j hj
          exact hw ((c₀ :: rest).get ⟨j, hj⟩) hmem)
        (show (rest.length + 1) + 1 ≤ ('*' :: '*' :: c₀ :: rest).length + 2 from by
          simp only [List.length_cons]
          omega)]
      rw [String.empty_append,
        show ('*' :: '*' :: c₀ :: rest).drop 2 = c₀ :: rest from rfl,
        show ('*' :: '*' :: c₀ :: rest).length - 1 = rest.length + 2 from by
          simp only [List.length_cons]
          omega]
    have heat1 : eat TokenType.BOLD
        ⟨⟨'*' :: '*' :: c₀ :: rest, 2, JSChar.char c₀⟩, ⟨"**", TokenType.BOLD⟩⟩ =
        Except.ok ⟨⟨'*' :: '*' :: c₀ :: rest, rest.length + 2, nulChar⟩,
          ⟨String.mk (c₀ :: rest), TokenType.STRING⟩⟩ := by
      rw [eat, if_pos (show TokenType.BOLD = TokenType.BOLD from rfl)]
      rw [htext]
    rw [rootAux, if_neg (show ¬(TokenType.BOLD = TokenType.EOF) from by decide)]
    simp only [formatStmt]
    rw [boldStmt, heat1, pbind_ok]
    rfl

/-- C6 witness: the concrete input "**Hello" from the specification. -/
theorem C6_unterminated_bold_witness :
    (∀ c ∈ ("Hello" : String).toList, isAlphaNumericChar c = true) ∧
    parse ("**" ++ "Hello") =
      some (Except.error (PError.invalidToken
        ⟨String.singleton (Char.ofNat 0), TokenType.EOF⟩)) :=
  ⟨by decide, C6_unterminated_bold "Hello" (by decide)⟩

end MdParser
